import Mathlib

/-!
Shallow embedding of the MedAIScout analysis pipeline (src/Tool) in Lean 4.

The four-level `Analyser` pipeline of `Model.py` is embedded as pure
functions.  External collaborators (the transformers QA model, the selenium
browser, the scholarly search client and the GPT4All LLM) are passed in as
explicit oracle arguments, so every theorem quantifies over all possible
collaborator behaviours.  Python floats (QA confidence scores) are embedded
as rationals, Python strings as `String`/`List Char`.

The regular expressions used by the tool (`Helper_functions.regex_search`
call sites) are all of the shape `(?i)lit₁\s*lit₂` or a single
case-insensitive literal, where every literal chunk starts with a
non-whitespace character.  For such patterns the backtracking-free
"match chunk, skip maximal whitespace run, match next chunk" strategy is
equivalent to the regex semantics, which is how they are embedded below.
-/

/-- Whitespace class of Python's `\s` on ASCII text. -/
def isPyWs (c : Char) : Bool :=
  c = ' ' || c = '\t' || c = '\n' || c = '\r' || c = '\x0b' || c = '\x0c'

/-- Case-insensitive literal matching at the head of the text, returning the
rest of the text on success (embeds a `(?i)` literal regex chunk). -/
def litMatch : List Char → List Char → Option (List Char)
  | [], s => some s
  | _ :: _, [] => none
  | c :: cs, x :: xs => if x.toLower = c.toLower then litMatch cs xs else none

/-- Continue a chunked pattern: before every further chunk a `\s*` gap is
consumed greedily (sound because every chunk starts with a non-whitespace
character). -/
def patCont : List (List Char) → List Char → Bool
  | [], _ => true
  | c :: cs, s =>
    match litMatch c (s.dropWhile isPyWs) with
    | none => false
    | some s' => patCont cs s'

/-- Match a chunked `(?i)lit₁\s*lit₂\s*…` pattern at the current position. -/
def patMatchAt (p : List (List Char)) (s : List Char) : Bool :=
  match p with
  | [] => true
  | c :: cs =>
    match litMatch c s with
    | none => false
    | some s' => patCont cs s'

/-- `re.Pattern.search`: try the pattern at every position of the text. -/
def patSearch (p : List (List Char)) : List Char → Bool
  | [] => patMatchAt p []
  | x :: xs => patMatchAt p (x :: xs) || patSearch p xs

/-- `Helper_functions.regex_search`: true iff any of the patterns is found
somewhere in the text. -/
def regex_search (text : String) (pats : List (List (List Char))) : Bool :=
  pats.any (fun p => patSearch p text.data)

/-- Python `needle in haystack` on character lists (exact substring). -/
def strStartsWith : List Char → List Char → Bool
  | _, [] => true
  | [], _ :: _ => false
  | x :: xs, c :: cs => x = c && strStartsWith xs cs

/-- Exact substring containment test on character lists. -/
def strContains (hay needle : List Char) : Bool :=
  match hay with
  | [] => strStartsWith [] needle
  | x :: xs => strStartsWith (x :: xs) needle || strContains xs needle

/-- Python string `<` (lexicographic on code points), structurally. -/
def strLt : List Char → List Char → Bool
  | [], [] => false
  | [], _ :: _ => true
  | _ :: _, [] => false
  | a :: as, b :: bs =>
    if a.toNat < b.toNat then true
    else if b.toNat < a.toNat then false
    else strLt as bs

/- ===== settings.py constants used by the pipeline ===== -/

/-- `settings.NUMBER_OF_KEYWORDS` (cap on validated keywords in Level 2). -/
def NUMBER_OF_KEYWORDS : Nat := 5

/-- `settings.NO_SEARCH_RESULTS` (search results sampled by `check_desc`). -/
def NO_SEARCH_RESULTS : Nat := 2

/-- Confidence floor `1e-2` of `Model.analyse_pages`. -/
def CONFIDENCE_FLOOR : ℚ := mkRat 1 100

/-- `settings.QUESTION_1`. -/
def QUESTION_1 : String := "What are the algorithms used?"

/-- `settings.QUESTION_2`. -/
def QUESTION_2 : String := "What are the techniques used?"

/-- `settings.QUESTION_3`. -/
def QUESTION_3 : String := "What are machine learning techniques used?"

/-- `settings.QUESTION_4`. -/
def QUESTION_4 : String := "What is the input format to the device?"

/- ===== regex pattern sets (as compiled in Model.py / Browsing.py) ===== -/

/-- `(?i)machine\s*learning` -/
def reMachineLearning : List (List Char) := ["machine".data, "learning".data]

/-- `(?i)artificial\s*intelligence` -/
def reArtificialIntelligence : List (List Char) :=
  ["artificial".data, "intelligence".data]

/-- `(?i)510\s*k` -/
def re510k : List (List Char) := ["510".data, "k".data]

/-- `(?i)A\.I\.` -/
def reAIDots : List (List Char) := ["A.I.".data]

/-- The generic-term patterns of `Analyser.find_genericwords`. -/
def patterns_generic : List (List (List Char)) :=
  [reMachineLearning, reArtificialIntelligence, re510k, reAIDots]

/-- `(?i)adversarial\s*example` -/
def reAdversarialExample : List (List Char) :=
  ["adversarial".data, "example".data]

/-- `(?i)evasion` -/
def reEvasion : List (List Char) := ["evasion".data]

/-- `(?i)privacy attack` -/
def rePrivacyAttack : List (List Char) := ["privacy attack".data]

/-- `(?i)membership\s*inference` -/
def reMembershipInference : List (List Char) :=
  ["membership".data, "inference".data]

/-- `(?i)model inversion` -/
def reModelInversion : List (List Char) := ["model inversion".data]

/-- The inference-time pattern set of `Analyser.__find_attack_type`. -/
def patterns_inference : List (List (List Char)) :=
  [reAdversarialExample, reEvasion, rePrivacyAttack, reMembershipInference,
   reModelInversion]

/-- `(?i)training\s*time` -/
def reTrainingTime : List (List Char) := ["training".data, "time".data]

/-- `(?i)poisoning` -/
def rePoisoning : List (List Char) := ["poisoning".data]

/-- `(?i)data\s*manipulation` -/
def reDataManipulation : List (List Char) := ["data".data, "manipulation".data]

/-- The training-time pattern set of `Analyser.__find_attack_type`. -/
def patterns_training : List (List (List Char)) :=
  [reTrainingTime, rePoisoning, reDataManipulation]

/-- The seven AI/ML signal patterns of `browser.check_desc`. -/
def patterns_desc : List (List (List Char)) :=
  [reMachineLearning, reArtificialIntelligence,
   ["deep".data, "learning".data],
   ["neural".data, "network".data],
   ["classification".data, "methods".data],
   ["classifier".data],
   ["computer".data, "vision".data]]

/- ===== leaf functions of the pipeline ===== -/

/-- `Analyser.find_genericwords`: `if not text: return False`, then regex
search over the four generic patterns (the patterns never raise, so the
`except` branch of the source is dead). -/
def find_genericwords (text : String) : Bool :=
  if text = "" then false else regex_search text patterns_generic

/-- `Analyser.__find_attack_type`: empty page ↦ -1, else inference-time
patterns first (0), then training-time patterns (1), else -1. -/
def find_attack_type (text : String) : Int :=
  if text = "" then -1
  else if regex_search text patterns_inference then 0
  else if regex_search text patterns_training then 1
  else -1

/-- `Helper_functions.check_presence element array` where `array` is the list
of `(confidence, text)` tuples: Python evaluates `element in i` for each
tuple `i`, which is equality of `element` with a component of the tuple;
the string `element` never equals the float component, so the test is
exact equality with the text component. -/
def check_presence (element : String) (array : List (ℚ × String)) : Bool :=
  array.any (fun i => element = i.2)

/-- One step of the Level-1 duplicate-removal loop in `Analyser.level_1`:
`if not check_presence(answer[i][1], initial_results): initial_results.append(answer[i])`. -/
def dedupStep (acc : List (ℚ × String)) (x : ℚ × String) : List (ℚ × String) :=
  if check_presence x.2 acc then acc else acc ++ [x]

/-- The Level-1 duplicate-removal loop: seed with the first answer, then fold
`dedupStep` over the remaining answers. -/
def removeDuplicates : List (ℚ × String) → List (ℚ × String)
  | [] => []
  | a :: rest => rest.foldl dedupStep [a]

/-- Python tuple comparison `(score₁, text₁) > (score₂, text₂)`:
lexicographic, floats first, then strings by code points. -/
def pyGt (a b : ℚ × String) : Bool :=
  if a.1 = b.1 then strLt b.2.data a.2.data else decide (b.1 < a.1)

/-- Insert one element into a descending-sorted list, keeping it after every
strictly greater element (the earlier of two equal tuples stays first). -/
def insertDesc (x : ℚ × String) : List (ℚ × String) → List (ℚ × String)
  | [] => [x]
  | y :: ys => if pyGt y x then y :: insertDesc x ys else x :: y :: ys

/-- Python `list.sort(reverse=True)` on `(float, str)` tuples: the stable
descending sort (a stable sort is determined by its comparator, so the
insertion sort below has exactly the behaviour of CPython's Timsort). -/
def pySort : List (ℚ × String) → List (ℚ × String)
  | [] => []
  | x :: xs => insertDesc x (pySort xs)

/-- `str.strip()` on character lists (ASCII whitespace). -/
def charTrim (cs : List Char) : List Char :=
  ((cs.dropWhile isPyWs).reverse.dropWhile isPyWs).reverse

/-- `str(res["answer"]).strip().replace("\n", " ")` of `Model.analyse_pages`. -/
def cleanAnswer (s : String) : String :=
  String.mk ((charTrim s.data).map (fun c => if c = '\n' then ' ' else c))

/-- `Model.analyse_pages` with the transformers QA pipeline abstracted as an
oracle `nlp question paragraph ↦ Option (score, answer)`: empty input guard,
skip blank paragraphs, retain answers scoring strictly above `1e-2`, clean
the answer text, and sort the collected answers with `sort(reverse=True)`. -/
def analyse_pages (nlp : String → String → Option (ℚ × String))
    (pages : List String) (question : String) : List (ℚ × String) :=
  if pages = [] ∨ question = "" then []
  else
    pySort (pages.filterMap (fun p =>
      if p = "" ∨ charTrim p.data = [] then none
      else
        match nlp question p with
        | none => none
        | some (score, ans) =>
          if CONFIDENCE_FLOOR < score then some (score, cleanAnswer ans)
          else none))

/-- The per-document outputs of `Analyser.level_1`. -/
structure Level1Out where
  initial_results : List (ℚ × String)
  additional_results : List (ℚ × String)
deriving Repr, DecidableEq

/-- `Analyser.level_1`: QUESTION_1–3 answers are pooled and re-sorted,
QUESTION_4 answers go to `additional_results` only; the pooled answers are
deduplicated with `check_presence`.  (On `pages = []` the source returns
early without touching `additional_results`, which is `[]` on a fresh
`Analyser`.) -/
def level_1 (nlp : String → String → Option (ℚ × String))
    (pages : List String) : Level1Out :=
  if pages = [] then ⟨[], []⟩
  else
    let answer_1 := analyse_pages nlp pages QUESTION_1
    let answer_2 := analyse_pages nlp pages QUESTION_2
    let answer_3 := analyse_pages nlp pages QUESTION_3
    let additional := analyse_pages nlp pages QUESTION_4
    let answer := pySort (answer_1 ++ answer_2 ++ answer_3)
    if answer = [] then ⟨[], additional⟩
    else ⟨removeDuplicates answer, additional⟩

/- ===== Level 2: web validation (Browsing.check_desc + Analyser.level_2) ===== -/

/-- Behaviour of the browser collaborators during one `check_desc` call:
either some collaborator call raises, or the Google search yields a url
stream `urls` and `get_page` behaves as `content` (`none` is the "None"
sentinel for an unfetchable page). -/
inductive DescWorld where
  | raises
  | runs (urls : List String) (content : String → Option String)

/-- The result-sampling loop of `browser.check_desc`: up to
`min NO_SEARCH_RESULTS 3` search results are examined; fda.gov/.img/.pdf
urls and unfetchable pages are skipped; a page matching any of the seven
AI/ML patterns returns `true`. -/
def check_desc_loop (content : String → Option String) : List String → Bool
  | [] => false
  | u :: rest =>
    if strContains u.data "fda.gov".data || strContains u.data ".img".data
        || strContains u.data ".pdf".data then
      check_desc_loop content rest
    else
      match content u with
      | none => check_desc_loop content rest
      | some c =>
        if regex_search c patterns_desc then true
        else check_desc_loop content rest

/-- `browser.check_desc`: on any exception the handler sets `result = True`
and the function returns `True`; otherwise the sampling loop decides. -/
def check_desc (w : DescWorld) : Bool :=
  match w with
  | .raises => true
  | .runs urls content =>
    check_desc_loop content (urls.take (min NO_SEARCH_RESULTS 3))

/-- Behaviour of the loop body of `Analyser.level_2` for one candidate:
either the body raises an exception (caught by the per-candidate handler),
or `check_desc` runs in the given world. -/
inductive CandOutcome where
  | raise
  | desc (w : DescWorld)

/-- The candidate loop of `Analyser.level_2`: stop when `filtered_results`
reaches `NUMBER_OF_KEYWORDS`; skip empty keywords and generic terms; append
web-validated candidates to `filtered_results` and failed ones to
`neglected_results`; a raised exception skips the candidate (`continue`). -/
def level_2_go (env : String → CandOutcome) :
    List (ℚ × String) → List (ℚ × String) → List (ℚ × String) →
    List (ℚ × String) × List (ℚ × String)
  | [], fil, neg => (fil, neg)
  | i :: rest, fil, neg =>
    if NUMBER_OF_KEYWORDS ≤ fil.length then (fil, neg)
    else if i.2 = "" then level_2_go env rest fil neg
    else if find_genericwords i.2 then level_2_go env rest fil neg
    else
      match env i.2 with
      | .raise => level_2_go env rest fil neg
      | .desc w =>
        if check_desc w then level_2_go env rest (fil ++ [i]) neg
        else level_2_go env rest fil (neg ++ [i])

/-- `Analyser.level_2` with the browser abstracted as an oracle `env` giving
the behaviour of the loop body for each keyword. -/
def level_2 (env : String → CandOutcome) (results : List (ℚ × String)) :
    List (ℚ × String) × List (ℚ × String) :=
  if results = [] then ([], []) else level_2_go env results [] []

/- ===== Level 2-Alt: LLM re-filtering (LLM.keyword_completion + Analyser.level_2_alt) ===== -/

/-- Observable outcome of `LLM.keyword_completion` (an `LLMResponse`):
`success` carries the parsed keyword list, `failure` is `success == False`. -/
inductive LLMResult where
  | success (data : List String)
  | failure

/-- `Analyser.level_2_alt` with `keyword_completion` abstracted as the
oracle `llm`: on failure the source falls back to the first five raw
keywords (`keywords = list_of_keywords[:5]`); either way the generic-term
filter is applied afterwards. -/
def level_2_alt (llm : List String → LLMResult)
    (results : List (ℚ × String)) : List String :=
  if results = [] then []
  else
    let list_of_keywords := results.map (fun i => i.2)
    if list_of_keywords = [] then []
    else
      let keywords :=
        match llm list_of_keywords with
        | .success data => data
        | .failure => list_of_keywords.take 5
      keywords.filter (fun k => !find_genericwords k)

/- ===== Level 3: literature search (Analyser.level_3) ===== -/

/-- The three fixed search-term pieces prepended to each keyword. -/
def searchPrefixes : List String :=
  ["Security Attacks on ", "Inference time attacks on ",
   "Training time attacks on "]

/-- One (search-piece, candidate) query of `Analyser.level_3`: an empty
keyword, a query raising an exception (`none`) and a query returning no
papers all contribute an empty inner list at that position. -/
def queryCell (search : String → Option (List (List String)))
    (pre : String) (r : ℚ × String) : List (List String) :=
  if r.2 = "" then []
  else
    match search (pre ++ r.2) with
    | some papers => papers
    | none => []

/-- `Analyser.level_3` with `scholarly_scraper.get_info` abstracted as the
oracle `search` (`none` models a raised exception, handled by appending an
empty list). -/
def level_3 (search : String → Option (List (List String)))
    (results : List (ℚ × String)) : List (List (List (List String))) :=
  if results = [] then []
  else searchPrefixes.map (fun pre => results.map (queryCell search pre))

/- ===== Level 4: attack classification (Analyser.level_4) ===== -/

/-- The inner paper loop of `Analyser.level_4` for one `[prefix][keyword]`
cell, returning (filtered papers, rejected papers): a paper record with
fewer than 3 fields is skipped by `continue`; otherwise its page is fetched
and classified, attack papers (type 0 or 1) are kept with an appended
label, everything else goes to the rejected cell. -/
def level_4_cell (fetch : String → String) :
    List (List String) → List (List String) × List (List String)
  | [] => ([], [])
  | p :: rest =>
    let r := level_4_cell fetch rest
    if p.length < 3 then r
    else
      let t := find_attack_type (fetch (p.getD 2 ""))
      if t = 0 ∨ t = 1 then
        ((p ++ [if t = 0 then "Attack Type 0" else "Attack Type 1"]) :: r.1,
         r.2)
      else (r.1, p :: r.2)

/-- `Analyser.level_4` with `browser.get_page` abstracted as the oracle
`fetch` (returning the page text, or the `"None"` sentinel on failure):
the nested structure is traversed positionally and each cell is split into
kept attack papers and rejected papers. -/
def level_4 (fetch : String → String)
    (results : List (List (List (List String)))) :
    List (List (List (List String))) × List (List (List (List String))) :=
  if results = [] then ([], [])
  else
    (results.map (fun row => row.map (fun cell => (level_4_cell fetch cell).1)),
     results.map (fun row => row.map (fun cell => (level_4_cell fetch cell).2)))

/- ===== concrete oracles used by counterexamples and witnesses ===== -/

/-- QA oracle for which QUESTION_1 finds "XGBoost" (score 9/10) in the first
paragraph and its substring "XGB" (score 1/2) in the second. -/
def nlpSubstring : String → String → Option (ℚ × String) :=
  fun q p =>
    if q = QUESTION_1 then
      if p = "p1" then some (mkRat 9 10, "XGBoost")
      else if p = "p2" then some (mkRat 1 2, "XGB")
      else none
    else none

/-- QA oracle for which QUESTION_1 finds two answers with the same score:
"apple" (discovered first) and "zebra" (discovered second). -/
def nlpTie : String → String → Option (ℚ × String) :=
  fun q p =>
    if q = QUESTION_1 then
      if p = "p1" then some (1, "apple")
      else if p = "p2" then some (1, "zebra")
      else none
    else none

/-- QA oracle for which QUESTION_1 finds "CNN" and QUESTION_4 finds
"DICOM image", each in the only paragraph. -/
def nlpFourth : String → String → Option (ℚ × String) :=
  fun q p =>
    if p = "p1" then
      if q = QUESTION_1 then some (1, "CNN")
      else if q = QUESTION_4 then some (1, "DICOM image")
      else none
    else none

/- ===== helper lemmas: the code-point string order ===== -/

theorem char_eq_of_toNat_eq {a b : Char} (h : a.toNat = b.toNat) : a = b :=
  Char.ext (UInt32.ext h)

theorem strLt_asymm : ∀ a b : List Char, strLt a b = true → strLt b a = false := by
  intro a
  induction a with
  | nil => intro b h; cases b <;> simp [strLt] at h ⊢
  | cons x xs ih =>
    intro b h
    cases b with
    | nil => simp [strLt] at h
    | cons y ys =>
      simp only [strLt] at h ⊢
      by_cases h1 : x.toNat < y.toNat
      · have h2 : ¬ y.toNat < x.toNat := by omega
        simp [h1, h2]
      · by_cases h2 : y.toNat < x.toNat
        · simp [h1, h2] at h
        · simp [h1, h2] at h ⊢
          exact ih ys h

theorem strLt_trans : ∀ a b c : List Char,
    strLt a b = true → strLt b c = true → strLt a c = true := by
  intro a
  induction a with
  | nil =>
    intro b c h1 h2
    cases b with
    | nil => simp [strLt] at h1
    | cons y ys => cases c with
      | nil => simp [strLt] at h2
      | cons z zs => simp [strLt]
  | cons x xs ih =>
    intro b c h1 h2
    cases b with
    | nil => simp [strLt] at h1
    | cons y ys =>
      cases c with
      | nil => simp [strLt] at h2
      | cons z zs =>
        simp only [strLt] at h1 h2 ⊢
        by_cases hxy : x.toNat < y.toNat
        · by_cases hyz : y.toNat < z.toNat
          · have : x.toNat < z.toNat := by omega
            simp [this]
          · by_cases hzy : z.toNat < y.toNat
            · simp [hyz, hzy] at h2
            · have : x.toNat < z.toNat := by omega
              simp [this]
        · by_cases hyx : y.toNat < x.toNat
          · simp [hxy, hyx] at h1
          · by_cases hyz : y.toNat < z.toNat
            · have : x.toNat < z.toNat := by omega
              simp [this]
            · by_cases hzy : z.toNat < y.toNat
              · simp [hyz, hzy] at h2
              · have hxz : ¬ x.toNat < z.toNat := by omega
                have hzx : ¬ z.toNat < x.toNat := by omega
                simp [hxy, hyx] at h1
                simp [hyz, hzy] at h2
                simp [hxz, hzx]
                exact ih ys zs h1 h2

theorem strLt_conn : ∀ a b : List Char,
    strLt a b = false → strLt b a = false → a = b := by
  intro a
  induction a with
  | nil =>
    intro b h1 _
    cases b with
    | nil => rfl
    | cons y ys => simp [strLt] at h1
  | cons x xs ih =>
    intro b h1 h2
    cases b with
    | nil => simp [strLt] at h2
    | cons y ys =>
      simp only [strLt] at h1 h2
      by_cases hxy : x.toNat < y.toNat
      · simp [hxy] at h1
      · by_cases hyx : y.toNat < x.toNat
        · simp [hyx] at h2
        · have hx : x = y := char_eq_of_toNat_eq (by omega)
          simp [hxy, hyx] at h1 h2
          rw [hx, ih ys h1 h2]

/- ===== helper lemmas: the Python tuple order and stable sort ===== -/

theorem pyGt_asymm {a b : ℚ × String} (h : pyGt a b = true) :
    pyGt b a = false := by
  unfold pyGt at h ⊢
  by_cases h1 : a.1 = b.1
  · simp [h1] at h ⊢
    exact strLt_asymm _ _ h
  · simp [h1] at h
    have h2 : ¬ b.1 = a.1 := fun hc => h1 hc.symm
    simp [h2]
    exact le_of_lt h

theorem strLt_le_trans {a b c : List Char}
    (h1 : strLt a b = false) (h2 : strLt b c = false) : strLt a c = false := by
  by_cases hlt : strLt a c = true
  · exfalso
    by_cases hba : strLt b a = true
    · exact absurd (strLt_trans _ _ _ hba hlt) (by simp [h2])
    · have hab : a = b := strLt_conn _ _ h1 (by simpa using hba)
      rw [hab] at hlt
      exact absurd hlt (by simp [h2])
  · simpa using hlt

theorem pyGt_le_trans {a b c : ℚ × String}
    (h1 : pyGt b a = false) (h2 : pyGt c b = false) : pyGt c a = false := by
  unfold pyGt at h1 h2 ⊢
  by_cases hba : b.1 = a.1
  · rw [if_pos hba] at h1
    by_cases hcb : c.1 = b.1
    · have hca : c.1 = a.1 := hcb.trans hba
      rw [if_pos hcb] at h2
      rw [if_pos hca]
      exact strLt_le_trans h1 h2
    · rw [if_neg hcb] at h2
      simp only [decide_eq_false_iff_not, not_lt] at h2
      have hca : ¬ c.1 = a.1 := by rw [hba] at hcb; exact hcb
      rw [if_neg hca]
      simp only [decide_eq_false_iff_not, not_lt]
      rw [← hba]; exact h2
  · rw [if_neg hba] at h1
    simp only [decide_eq_false_iff_not, not_lt] at h1
    by_cases hcb : c.1 = b.1
    · have hca : ¬ c.1 = a.1 := by rw [hcb]; exact hba
      rw [if_neg hca]
      simp only [decide_eq_false_iff_not, not_lt]
      rw [hcb]; exact h1
    · rw [if_neg hcb] at h2
      simp only [decide_eq_false_iff_not, not_lt] at h2
      have hca : ¬ c.1 = a.1 := by
        intro hc
        rw [hc] at h2
        exact absurd (lt_of_le_of_ne h2 (Ne.symm hba))
          (not_lt_of_ge h1)
      rw [if_neg hca]
      simp only [decide_eq_false_iff_not, not_lt]
      exact le_trans h2 h1

theorem insertDesc_perm (x : ℚ × String) :
    ∀ l : List (ℚ × String), (insertDesc x l).Perm (x :: l) := by
  intro l
  induction l with
  | nil => simp [insertDesc]
  | cons y ys ih =>
    simp only [insertDesc]
    by_cases h : pyGt y x = true
    · rw [if_pos h]
      exact List.Perm.trans (List.Perm.cons y ih) (List.Perm.swap x y ys)
    · rw [if_neg h]

theorem pySort_perm : ∀ l : List (ℚ × String), (pySort l).Perm l := by
  intro l
  induction l with
  | nil => simp [pySort]
  | cons x xs ih =>
    simp only [pySort]
    exact (insertDesc_perm x (pySort xs)).trans (List.Perm.cons x ih)

theorem mem_pySort {x : ℚ × String} {l : List (ℚ × String)} :
    x ∈ pySort l ↔ x ∈ l :=
  (pySort_perm l).mem_iff

theorem insertDesc_pairwise {x : ℚ × String} :
    ∀ {l : List (ℚ × String)},
      l.Pairwise (fun a b => pyGt b a = false) →
      (insertDesc x l).Pairwise (fun a b => pyGt b a = false) := by
  intro l
  induction l with
  | nil =>
    intro _
    simp [insertDesc]
  | cons y ys ih =>
    intro h
    rcases List.pairwise_cons.mp h with ⟨hy, hys⟩
    simp only [insertDesc]
    by_cases hgt : pyGt y x = true
    · rw [if_pos hgt]
      refine List.pairwise_cons.mpr ⟨?_, ih hys⟩
      intro z hz
      rcases List.mem_cons.mp ((insertDesc_perm x ys).mem_iff.mp hz) with hzx | hzys
      · rw [hzx]; exact pyGt_asymm hgt
      · exact hy z hzys
    · have hgt' : pyGt y x = false := by simpa using hgt
      rw [if_neg hgt]
      refine List.pairwise_cons.mpr ⟨?_, h⟩
      intro z hz
      rcases List.mem_cons.mp hz with hzy | hzys
      · rw [hzy]; exact hgt'
      · exact pyGt_le_trans hgt' (hy z hzys)

theorem pySort_pairwise : ∀ l : List (ℚ × String),
    (pySort l).Pairwise (fun a b => pyGt b a = false) := by
  intro l
  induction l with
  | nil => simp [pySort]
  | cons x xs ih => exact insertDesc_pairwise ih

/- ===== helper lemmas: the Level-1 dedup loop ===== -/

theorem foldl_dedupStep_sublist :
    ∀ (l acc : List (ℚ × String)),
      List.Sublist (l.foldl dedupStep acc) (acc ++ l) := by
  intro l
  induction l with
  | nil => intro acc; simp
  | cons x xs ih =>
    intro acc
    have step : List.Sublist (dedupStep acc x ++ xs) (acc ++ x :: xs) := by
      unfold dedupStep
      by_cases h : check_presence x.2 acc = true
      · rw [if_pos h]
        exact List.Sublist.append_left (List.sublist_cons_self x xs) acc
      · rw [if_neg h]
        simp
    exact (ih (dedupStep acc x)).trans step

theorem removeDuplicates_sublist (l : List (ℚ × String)) :
    List.Sublist (removeDuplicates l) l := by
  cases l with
  | nil => simp [removeDuplicates]
  | cons a rest =>
    simpa using foldl_dedupStep_sublist rest [a]

theorem mem_removeDuplicates {x : ℚ × String} {l : List (ℚ × String)}
    (h : x ∈ removeDuplicates l) : x ∈ l :=
  (removeDuplicates_sublist l).mem h

theorem foldl_dedupStep_pairwiseNe :
    ∀ (l acc : List (ℚ × String)),
      acc.Pairwise (fun a b => a.2 ≠ b.2) →
      (l.foldl dedupStep acc).Pairwise (fun a b => a.2 ≠ b.2) := by
  intro l
  induction l with
  | nil => intro acc h; simpa using h
  | cons x xs ih =>
    intro acc h
    refine ih (dedupStep acc x) ?_
    unfold dedupStep
    by_cases hc : check_presence x.2 acc = true
    · rw [if_pos hc]; exact h
    · rw [if_neg hc]
      have hnotin : ∀ p ∈ acc, p.2 ≠ x.2 := by
        intro p hp heq
        apply hc
        unfold check_presence
        exact List.any_eq_true.mpr ⟨p, hp, by simp [heq]⟩
      refine List.pairwise_append.mpr ⟨h, List.pairwise_singleton _ _, ?_⟩
      intro a ha b hb
      rw [List.mem_singleton.mp hb]
      exact hnotin a ha

theorem removeDuplicates_pairwiseNe (l : List (ℚ × String)) :
    (removeDuplicates l).Pairwise (fun a b => a.2 ≠ b.2) := by
  cases l with
  | nil => simp [removeDuplicates]
  | cons a rest =>
    exact foldl_dedupStep_pairwiseNe rest [a] (List.pairwise_singleton _ _)

/- ===== helper lemmas: analyse_pages and level_1 ===== -/

theorem mem_analyse_pages_score {nlp : String → String → Option (ℚ × String)}
    {pages : List String} {q : String} {x : ℚ × String}
    (h : x ∈ analyse_pages nlp pages q) : CONFIDENCE_FLOOR < x.1 := by
  unfold analyse_pages at h
  by_cases hg : pages = [] ∨ q = ""
  · rw [if_pos hg] at h; simp at h
  · rw [if_neg hg] at h
    rcases List.mem_filterMap.mp (mem_pySort.mp h) with ⟨p, _, hp⟩
    by_cases hblank : p = "" ∨ charTrim p.data = []
    · rw [if_pos hblank] at hp; simp at hp
    · rw [if_neg hblank] at hp
      cases hnlp : nlp q p with
      | none => rw [hnlp] at hp; simp at hp
      | some sa =>
        rw [hnlp] at hp
        obtain ⟨score, ans⟩ := sa
        simp only at hp
        by_cases hs : CONFIDENCE_FLOOR < score
        · rw [if_pos hs] at hp
          cases hp
          exact hs
        · rw [if_neg hs] at hp; simp at hp

theorem level_1_initial_mem {nlp : String → String → Option (ℚ × String)}
    {pages : List String} {x : ℚ × String}
    (h : x ∈ (level_1 nlp pages).initial_results) :
    x ∈ analyse_pages nlp pages QUESTION_1 ∨
    x ∈ analyse_pages nlp pages QUESTION_2 ∨
    x ∈ analyse_pages nlp pages QUESTION_3 := by
  unfold level_1 at h
  by_cases hp : pages = []
  · rw [if_pos hp] at h; simp at h
  · rw [if_neg hp] at h
    simp only at h
    by_cases he : pySort (analyse_pages nlp pages QUESTION_1 ++
        analyse_pages nlp pages QUESTION_2 ++
        analyse_pages nlp pages QUESTION_3) = []
    · rw [if_pos he] at h; simp at h
    · rw [if_neg he] at h
      simp only at h
      have hmem := mem_pySort.mp (mem_removeDuplicates h)
      rcases List.mem_append.mp hmem with h12 | h3
      · rcases List.mem_append.mp h12 with h1 | h2
        · exact Or.inl h1
        · exact Or.inr (Or.inl h2)
      · exact Or.inr (Or.inr h3)

theorem level_1_additional_eq (nlp : String → String → Option (ℚ × String))
    (pages : List String) :
    (level_1 nlp pages).additional_results =
      analyse_pages nlp pages QUESTION_4 := by
  unfold level_1
  by_cases hp : pages = []
  · rw [if_pos hp]
    unfold analyse_pages
    rw [if_pos (Or.inl hp)]
  · rw [if_neg hp]
    simp only
    by_cases he : pySort (analyse_pages nlp pages QUESTION_1 ++
        analyse_pages nlp pages QUESTION_2 ++
        analyse_pages nlp pages QUESTION_3) = []
    · rw [if_pos he]
    · rw [if_neg he]

theorem level_1_initial_pairwise_sorted
    (nlp : String → String → Option (ℚ × String)) (pages : List String) :
    ((level_1 nlp pages).initial_results).Pairwise
      (fun a b => pyGt b a = false) := by
  unfold level_1
  by_cases hp : pages = []
  · rw [if_pos hp]; simp
  · rw [if_neg hp]
    simp only
    by_cases he : pySort (analyse_pages nlp pages QUESTION_1 ++
        analyse_pages nlp pages QUESTION_2 ++
        analyse_pages nlp pages QUESTION_3) = []
    · rw [if_pos he]; simp
    · rw [if_neg he]
      simp only
      exact (pySort_pairwise _).sublist (removeDuplicates_sublist _)

/- ===== helper lemmas: the Level-2 loop ===== -/

theorem level_2_go_fil_length (env : String → CandOutcome) :
    ∀ (l fil neg : List (ℚ × String)),
      fil.length ≤ NUMBER_OF_KEYWORDS →
      ((level_2_go env l fil neg).1).length ≤ NUMBER_OF_KEYWORDS := by
  intro l
  induction l with
  | nil => intro fil neg h; simpa [level_2_go] using h
  | cons i rest ih =>
    intro fil neg h
    unfold level_2_go
    by_cases hfull : NUMBER_OF_KEYWORDS ≤ fil.length
    · rw [if_pos hfull]; exact h
    · rw [if_neg hfull]
      by_cases hek : i.2 = ""
      · rw [if_pos hek]; exact ih fil neg h
      · rw [if_neg hek]
        by_cases hgen : find_genericwords i.2 = true
        · rw [if_pos hgen]; exact ih fil neg h
        · rw [if_neg hgen]
          cases env i.2 with
          | raise => exact ih fil neg h
          | desc w =>
            dsimp only
            by_cases hcd : check_desc w = true
            · rw [if_pos hcd]
              refine ih (fil ++ [i]) neg ?_
              simp only [List.length_append, List.length_singleton]
              omega
            · rw [if_neg hcd]
              exact ih fil (neg ++ [i]) h

theorem level_2_go_fil_extends (env : String → CandOutcome) :
    ∀ (l fil neg : List (ℚ × String)),
      ∃ t, (level_2_go env l fil neg).1 = fil ++ t := by
  intro l
  induction l with
  | nil => intro fil neg; exact ⟨[], by simp [level_2_go]⟩
  | cons i rest ih =>
    intro fil neg
    unfold level_2_go
    by_cases hfull : NUMBER_OF_KEYWORDS ≤ fil.length
    · rw [if_pos hfull]; exact ⟨[], by simp⟩
    · rw [if_neg hfull]
      by_cases hek : i.2 = ""
      · rw [if_pos hek]; exact ih fil neg
      · rw [if_neg hek]
        by_cases hgen : find_genericwords i.2 = true
        · rw [if_pos hgen]; exact ih fil neg
        · rw [if_neg hgen]
          cases env i.2 with
          | raise => exact ih fil neg
          | desc w =>
            dsimp only
            by_cases hcd : check_desc w = true
            · rw [if_pos hcd]
              rcases ih (fil ++ [i]) neg with ⟨t, ht⟩
              exact ⟨i :: t, by simpa using ht⟩
            · rw [if_neg hcd]
              exact ih fil (neg ++ [i])

theorem level_2_go_fil_mem (env : String → CandOutcome) :
    ∀ (l fil neg : List (ℚ × String)) (x : ℚ × String),
      x ∈ (level_2_go env l fil neg).1 → x ∈ fil ∨ x ∈ l := by
  intro l
  induction l with
  | nil => intro fil neg x h; simp [level_2_go] at h; exact Or.inl h
  | cons i rest ih =>
    intro fil neg x h
    unfold level_2_go at h
    by_cases hfull : NUMBER_OF_KEYWORDS ≤ fil.length
    · rw [if_pos hfull] at h; exact Or.inl h
    · rw [if_neg hfull] at h
      by_cases hek : i.2 = ""
      · rw [if_pos hek] at h
        rcases ih fil neg x h with h' | h'
        · exact Or.inl h'
        · exact Or.inr (List.mem_cons_of_mem i h')
      · rw [if_neg hek] at h
        by_cases hgen : find_genericwords i.2 = true
        · rw [if_pos hgen] at h
          rcases ih fil neg x h with h' | h'
          · exact Or.inl h'
          · exact Or.inr (List.mem_cons_of_mem i h')
        · rw [if_neg hgen] at h
          cases henv : env i.2 with
          | raise =>
            rw [henv] at h
            rcases ih fil neg x h with h' | h'
            · exact Or.inl h'
            · exact Or.inr (List.mem_cons_of_mem i h')
          | desc w =>
            rw [henv] at h
            dsimp only at h
            by_cases hcd : check_desc w = true
            · rw [if_pos hcd] at h
              rcases ih (fil ++ [i]) neg x h with h' | h'
              · rcases List.mem_append.mp h' with h'' | h''
                · exact Or.inl h''
                · exact Or.inr (by simpa using Or.inl (List.mem_singleton.mp h''))
              · exact Or.inr (List.mem_cons_of_mem i h')
            · rw [if_neg hcd] at h
              rcases ih fil (neg ++ [i]) x h with h' | h'
              · exact Or.inl h'
              · exact Or.inr (List.mem_cons_of_mem i h')

theorem level_2_go_neg_mem (env : String → CandOutcome) :
    ∀ (l fil neg : List (ℚ × String)) (x : ℚ × String),
      x ∈ (level_2_go env l fil neg).2 → x ∈ neg ∨ x ∈ l := by
  intro l
  induction l with
  | nil => intro fil neg x h; simp [level_2_go] at h; exact Or.inl h
  | cons i rest ih =>
    intro fil neg x h
    unfold level_2_go at h
    by_cases hfull : NUMBER_OF_KEYWORDS ≤ fil.length
    · rw [if_pos hfull] at h; exact Or.inl h
    · rw [if_neg hfull] at h
      by_cases hek : i.2 = ""
      · rw [if_pos hek] at h
        rcases ih fil neg x h with h' | h'
        · exact Or.inl h'
        · exact Or.inr (List.mem_cons_of_mem i h')
      · rw [if_neg hek] at h
        by_cases hgen : find_genericwords i.2 = true
        · rw [if_pos hgen] at h
          rcases ih fil neg x h with h' | h'
          · exact Or.inl h'
          · exact Or.inr (List.mem_cons_of_mem i h')
        · rw [if_neg hgen] at h
          cases henv : env i.2 with
          | raise =>
            rw [henv] at h
            rcases ih fil neg x h with h' | h'
            · exact Or.inl h'
            · exact Or.inr (List.mem_cons_of_mem i h')
          | desc w =>
            rw [henv] at h
            dsimp only at h
            by_cases hcd : check_desc w = true
            · rw [if_pos hcd] at h
              rcases ih (fil ++ [i]) neg x h with h' | h'
              · exact Or.inl h'
              · exact Or.inr (List.mem_cons_of_mem i h')
            · rw [if_neg hcd] at h
              rcases ih fil (neg ++ [i]) x h with h' | h'
              · rcases List.mem_append.mp h' with h'' | h''
                · exact Or.inl h''
                · exact Or.inr (by simpa using Or.inl (List.mem_singleton.mp h''))
              · exact Or.inr (List.mem_cons_of_mem i h')

/- ===== helper lemmas: the Level-4 cell loop ===== -/

theorem level_4_cell_fil_len (fetch : String → String) :
    ∀ (papers : List (List String)) (q : List String),
      q ∈ (level_4_cell fetch papers).1 → 4 ≤ q.length := by
  intro papers
  induction papers with
  | nil => intro q h; simp [level_4_cell] at h
  | cons p rest ih =>
    intro q h
    unfold level_4_cell at h
    by_cases hshort : p.length < 3
    · rw [if_pos hshort] at h
      exact ih q h
    · rw [if_neg hshort] at h
      dsimp only at h
      by_cases ht : find_attack_type (fetch (p.getD 2 "")) = 0 ∨
          find_attack_type (fetch (p.getD 2 "")) = 1
      · rw [if_pos ht] at h
        rcases List.mem_cons.mp h with hq | hq
        · rw [hq]
          simp only [List.length_append, List.length_singleton]
          omega
        · exact ih q hq
      · rw [if_neg ht] at h
        exact ih q h

theorem level_4_cell_rej_len (fetch : String → String) :
    ∀ (papers : List (List String)) (q : List String),
      q ∈ (level_4_cell fetch papers).2 → 3 ≤ q.length := by
  intro papers
  induction papers with
  | nil => intro q h; simp [level_4_cell] at h
  | cons p rest ih =>
    intro q h
    unfold level_4_cell at h
    by_cases hshort : p.length < 3
    · rw [if_pos hshort] at h
      exact ih q h
    · rw [if_neg hshort] at h
      dsimp only at h
      by_cases ht : find_attack_type (fetch (p.getD 2 "")) = 0 ∨
          find_attack_type (fetch (p.getD 2 "")) = 1
      · rw [if_pos ht] at h
        exact ih q h
      · rw [if_neg ht] at h
        rcases List.mem_cons.mp h with hq | hq
        · rw [hq]; omega
        · exact ih q hq

theorem find_attack_type_none_sentinel : find_attack_type "None" = -1 := by
  decide

theorem level_4_cell_rej_of_fetch_fail (fetch : String → String) :
    ∀ (papers : List (List String)) (p : List String),
      p ∈ papers → 3 ≤ p.length → fetch (p.getD 2 "") = "None" →
      p ∈ (level_4_cell fetch papers).2 := by
  intro papers
  induction papers with
  | nil => intro p h; simp at h
  | cons q rest ih =>
    intro p hmem hlen hfetch
    unfold level_4_cell
    rcases List.mem_cons.mp hmem with hp | hp
    · subst hp
      rw [if_neg (by omega)]
      dsimp only
      rw [hfetch, find_attack_type_none_sentinel]
      rw [if_neg (by simp)]
      exact List.mem_cons_self _ _
    · have htail := ih p hp hlen hfetch
      by_cases hshort : q.length < 3
      · rw [if_pos hshort]
        exact htail
      · rw [if_neg hshort]
        dsimp only
        by_cases ht : find_attack_type (fetch (q.getD 2 "")) = 0 ∨
            find_attack_type (fetch (q.getD 2 "")) = 1
        · rw [if_pos ht]
          exact htail
        · rw [if_neg ht]
          exact List.mem_cons_of_mem q htail

/- ===== helper lemmas: the chunked regex matcher ===== -/

theorem litMatch_self_append : ∀ (cs xs : List Char),
    litMatch cs (cs ++ xs) = some xs := by
  intro cs
  induction cs with
  | nil => intro xs; simp [litMatch]
  | cons c cs' ih =>
    intro xs
    simp only [List.cons_append, litMatch, if_pos rfl]
    exact ih xs

theorem patSearch_of_patMatchAt (p : List (List Char)) :
    ∀ (pre s : List Char), patMatchAt p s = true →
      patSearch p (pre ++ s) = true := by
  intro pre
  induction pre with
  | nil =>
    intro s h
    cases s with
    | nil => simpa [patSearch] using h
    | cons x xs =>
      simp only [List.nil_append]
      unfold patSearch
      rw [h]
      simp
  | cons y ys ih =>
    intro s h
    simp only [List.cons_append, patSearch, List.append_eq]
    rw [ih s h]
    simp

theorem patMatchAt_cons_of_lit {c s s' : List Char} {cs : List (List Char)}
    (h : litMatch c s = some s') : patMatchAt (c :: cs) s = patCont cs s' := by
  have hstep : patMatchAt (c :: cs) s =
      (match litMatch c s with
       | none => false
       | some s' => patCont cs s') := rfl
  rw [hstep, h]

theorem patCont_cons_of_lit {c : List Char} {cs : List (List Char)}
    {s s' : List Char} (h : litMatch c (s.dropWhile isPyWs) = some s') :
    patCont (c :: cs) s = patCont cs s' := by
  have hstep : patCont (c :: cs) s =
      (match litMatch c (s.dropWhile isPyWs) with
       | none => false
       | some s' => patCont cs s') := rfl
  rw [hstep, h]

theorem memInf_matchAt (b : List Char) :
    patMatchAt reMembershipInference ("membership inference".data ++ b) = true := by
  have harg : "membership inference".data ++ b =
      "membership".data ++ (' ' :: ("inference".data ++ b)) := by
    have h0 : "membership inference".data =
        "membership".data ++ (' ' :: "inference".data) := by decide
    rw [h0, List.append_assoc]
    rfl
  have hdw : (' ' :: ("inference".data ++ b)).dropWhile isPyWs =
      "inference".data ++ b := by
    have hic : "inference".data ++ b = 'i' :: ("nference".data ++ b) := by
      have h1 : "inference".data = 'i' :: "nference".data := by decide
      rw [h1]
      rfl
    rw [List.dropWhile_cons, if_pos (by decide : isPyWs ' ' = true), hic,
      List.dropWhile_cons, if_neg (by decide : ¬ isPyWs 'i' = true)]
  unfold reMembershipInference
  rw [harg, patMatchAt_cons_of_lit (litMatch_self_append _ _),
    patCont_cons_of_lit (by rw [hdw]; exact litMatch_self_append _ _)]
  rfl

theorem poison_matchAt (b : List Char) :
    patMatchAt rePoisoning ("poisoning".data ++ b) = true := by
  unfold rePoisoning
  rw [patMatchAt_cons_of_lit (litMatch_self_append _ _)]
  rfl

theorem regex_search_of_memInf {t : String} {a b : List Char}
    (h : t.data = a ++ "membership inference".data ++ b) :
    regex_search t patterns_inference = true := by
  unfold regex_search
  apply List.any_eq_true.mpr
  refine ⟨reMembershipInference, by simp [patterns_inference], ?_⟩
  rw [h, List.append_assoc]
  exact patSearch_of_patMatchAt _ a _ (memInf_matchAt b)

theorem regex_search_of_poison {t : String} {a b : List Char}
    (h : t.data = a ++ "data poisoning".data ++ b) :
    regex_search t patterns_training = true := by
  unfold regex_search
  apply List.any_eq_true.mpr
  refine ⟨rePoisoning, by simp [patterns_training], ?_⟩
  have hd : "data poisoning".data ++ b =
      "data ".data ++ ("poisoning".data ++ b) := by
    have hx : "data poisoning".data = "data ".data ++ "poisoning".data := by
      decide
    rw [hx, List.append_assoc]
  rw [h, List.append_assoc, hd, ← List.append_assoc]
  exact patSearch_of_patMatchAt _ (a ++ "data ".data) _ (poison_matchAt b)

theorem string_ne_empty_of_data_decomp {t : String} {a m b : List Char}
    (hm : m ≠ []) (h : t.data = a ++ m ++ b) : t ≠ "" := by
  intro he
  rw [he] at h
  have h0 : ("" : String).data = [] := rfl
  rw [h0] at h
  rcases List.append_eq_nil.mp h.symm with ⟨ham, _⟩
  rcases List.append_eq_nil.mp ham with ⟨_, hm'⟩
  exact hm hm'

theorem regex_search_empty_inference :
    regex_search "" patterns_inference = false := by decide

/- ===== claim theorems ===== -/

/-- C1 (counterexample): Level 1's merge keeps both "XGBoost" (rank 0) and
its substring "XGB" (rank 1) in `initial_results`, so deduplication is NOT
by asymmetric substring containment: a lower-ranked answer whose text is a
proper substring of an already-kept text is retained. -/
theorem C1_counterexample :
    (level_1 nlpSubstring ["p1", "p2"]).initial_results =
      [(mkRat 9 10, "XGBoost"), (mkRat 1 2, "XGB")] ∧
    strContains "XGBoost".data "XGB".data = true ∧
    ("XGB" : String) ≠ "XGBoost" := by
  refine ⟨by decide, by decide, by decide⟩

/-- C1 (amended): Level 1's deduplication is by exact text equality, not
substring containment: a later answer is rejected by `dedupStep` exactly
when its text equals the text of some answer already kept, so no two
elements of `initial_results` carry the same text. -/
theorem C1_dedup_by_text_equality :
    (∀ (acc : List (ℚ × String)) (x : ℚ × String),
       dedupStep acc x = acc ↔ ∃ p ∈ acc, p.2 = x.2) ∧
    (∀ (nlp : String → String → Option (ℚ × String)) (pages : List String),
       ((level_1 nlp pages).initial_results).Pairwise
         (fun a b => a.2 ≠ b.2)) := by
  constructor
  · intro acc x
    unfold dedupStep
    by_cases hc : check_presence x.2 acc = true
    · rw [if_pos hc]
      simp only [true_iff]
      rcases List.any_eq_true.mp hc with ⟨p, hp, hpx⟩
      exact ⟨p, hp, by simpa using (of_decide_eq_true hpx).symm⟩
    · rw [if_neg hc]
      constructor
      · intro habs
        have : acc.length + 1 = acc.length := by
          conv_rhs => rw [← habs]
          simp
        omega
      · rintro ⟨p, hp, hpx⟩
        exact absurd (List.any_eq_true.mpr
          ⟨p, hp, by simp [check_presence, hpx.symm]⟩) hc
  · intro nlp pages
    unfold level_1
    by_cases hp : pages = []
    · rw [if_pos hp]; simp
    · rw [if_neg hp]
      simp only
      by_cases he : pySort (analyse_pages nlp pages QUESTION_1 ++
          analyse_pages nlp pages QUESTION_2 ++
          analyse_pages nlp pages QUESTION_3) = []
      · rw [if_pos he]; simp
      · rw [if_neg he]
        exact removeDuplicates_pairwiseNe _

/-- C1 (witness): the equality-based rejection rule instantiated: a later
answer whose text "CNN" equals a kept text is rejected (the accumulator is
returned unchanged). -/
theorem C1_witness :
    dedupStep [(1, "CNN")] (mkRat 1 2, "CNN") = [(1, "CNN")] :=
  (C1_dedup_by_text_equality.1 [(1, "CNN")] (mkRat 1 2, "CNN")).mpr
    ⟨(1, "CNN"), by simp, rfl⟩

/-- C2: for every candidate list and every behaviour of the web-validation
collaborator (including exceptions), `level_2` returns a `filtered_results`
list of at most NUMBER_OF_KEYWORDS = 5 elements. -/
theorem C2_filtered_results_cap
    (env : String → CandOutcome) (results : List (ℚ × String)) :
    ((level_2 env results).1).length ≤ NUMBER_OF_KEYWORDS ∧
    NUMBER_OF_KEYWORDS = 5 := by
  refine ⟨?_, rfl⟩
  unfold level_2
  by_cases h : results = []
  · rw [if_pos h]
    simp [NUMBER_OF_KEYWORDS]
  · rw [if_neg h]
    exact level_2_go_fil_length env results [] [] (by simp [NUMBER_OF_KEYWORDS])

/-- C3 (counterexample): when `keyword_completion` fails, `level_2_alt` does
NOT return the empty list: with one non-generic candidate "XGBoost" it falls
back to the raw candidates and returns ["XGBoost"]. -/
theorem C3_counterexample :
    level_2_alt (fun _ => LLMResult.failure) [(1, "XGBoost")] = ["XGBoost"] ∧
    (["XGBoost"] : List String) ≠ [] := by
  refine ⟨by decide, by decide⟩

/-- C3 (amended): when the LLM keyword filter fails, `level_2_alt` falls back
to the first five raw keywords (`list_of_keywords[:5]`), passed through the
generic-term filter — the output is empty only when that fallback is. -/
theorem C3_llm_failure_fallback
    (llm : List String → LLMResult) (results : List (ℚ × String))
    (hfail : ∀ ks, llm ks = LLMResult.failure) :
    level_2_alt llm results =
      ((results.map (fun i => i.2)).take 5).filter
        (fun k => !find_genericwords k) := by
  unfold level_2_alt
  by_cases h : results = []
  · rw [if_pos h, h]
    simp
  · rw [if_neg h]
    simp only
    have hmap : ¬ results.map (fun i => i.2) = [] := by
      simpa using h
    rw [if_neg hmap, hfail]

/-- C3 (witness): the fallback instantiated at a failing LLM and one
candidate. -/
theorem C3_amended_witness :
    level_2_alt (fun _ => LLMResult.failure) [(1, "Model X")] = ["Model X"] :=
  (C3_llm_failure_fallback (fun _ => LLMResult.failure) [(1, "Model X")]
    (fun _ => rfl)).trans (by decide)

/-- C4 (counterexample): a candidate whose loop body raises is NOT appended
to `neglected_results` — with the single candidate "Alpha" raising, both
output lists are empty. -/
theorem C4_counterexample :
    level_2 (fun _ => CandOutcome.raise) [(1, "Alpha")] = ([], []) := by
  decide

/-- C4 (amended): an exception in the loop body for one candidate makes
`level_2` skip that candidate entirely — it lands in neither
`filtered_results` nor `neglected_results` — and the remaining candidates
are processed exactly as if the raising candidate were absent. -/
theorem C4_exception_skips_candidate
    (env : String → CandOutcome) (c : ℚ × String) (rest : List (ℚ × String))
    (henv : env c.2 = CandOutcome.raise) (hc : c ∉ rest) :
    level_2 env (c :: rest) = level_2 env rest ∧
    c ∉ (level_2 env (c :: rest)).1 ∧
    c ∉ (level_2 env (c :: rest)).2 := by
  have hstep : level_2 env (c :: rest) = level_2_go env rest [] [] := by
    unfold level_2
    rw [if_neg (List.cons_ne_nil c rest)]
    conv_lhs => unfold level_2_go
    rw [if_neg (by simp [NUMBER_OF_KEYWORDS])]
    by_cases hek : c.2 = ""
    · rw [if_pos hek]
    · rw [if_neg hek]
      by_cases hgen : find_genericwords c.2 = true
      · rw [if_pos hgen]
      · rw [if_neg hgen, henv]
  have heq : level_2 env (c :: rest) = level_2 env rest := by
    rw [hstep]
    unfold level_2
    by_cases hrest : rest = []
    · rw [if_pos hrest, hrest]
      simp [level_2_go]
    · rw [if_neg hrest]
  refine ⟨heq, ?_, ?_⟩
  · intro hmem
    rw [hstep] at hmem
    rcases level_2_go_fil_mem env rest [] [] c hmem with h' | h'
    · simp at h'
    · exact hc h'
  · intro hmem
    rw [hstep] at hmem
    rcases level_2_go_neg_mem env rest [] [] c hmem with h' | h'
    · simp at h'
    · exact hc h'

/-- C4 (witness): the skip behaviour instantiated: "Beta" raises and is
skipped, processing continues with "Gamma". -/
theorem C4_amended_witness :
    level_2 (fun _ => CandOutcome.raise) [(1, "Beta"), (1, "Gamma")] =
      level_2 (fun _ => CandOutcome.raise) [(1, "Gamma")] ∧
    ((1 : ℚ), "Beta") ∉
      (level_2 (fun _ => CandOutcome.raise) [(1, "Beta"), (1, "Gamma")]).1 ∧
    ((1 : ℚ), "Beta") ∉
      (level_2 (fun _ => CandOutcome.raise) [(1, "Beta"), (1, "Gamma")]).2 :=
  C4_exception_skips_candidate (fun _ => CandOutcome.raise) (1, "Beta")
    [(1, "Gamma")] rfl (by decide)

/-- C5 (counterexample): two answers with equal confidence, "apple"
discovered before "zebra", come out of Level 1 as zebra-first — ties are
NOT broken by original discovery order. -/
theorem C5_counterexample :
    (level_1 nlpTie ["p1", "p2"]).initial_results =
      [(1, "zebra"), (1, "apple")] ∧
    (level_1 nlpTie ["p1", "p2"]).initial_results ≠
      [(1, "apple"), (1, "zebra")] := by
  refine ⟨by decide, by decide⟩

/-- C5 (amended): Level 1's ordering is descending in the lexicographic
Python tuple order on (confidence, text) — confidence descending, and ties
of equal confidence broken by text descending in code-point order, not by
discovery order (only fully equal pairs keep their discovery order, the
sort being stable); the result is still a deterministic function of the
paragraph sequence and the collaborator responses. -/
theorem C5_ordering_lexicographic :
    (∀ l : List (ℚ × String),
       (pySort l).Perm l ∧
       (pySort l).Pairwise (fun a b => pyGt b a = false)) ∧
    (∀ (nlp : String → String → Option (ℚ × String)) (pages : List String),
       ((level_1 nlp pages).initial_results).Pairwise
         (fun a b => pyGt b a = false)) :=
  ⟨fun l => ⟨pySort_perm l, pySort_pairwise l⟩,
   fun nlp pages => level_1_initial_pairwise_sorted nlp pages⟩

/-- C6 (counterexample): a paper record with fewer than 3 fields is silently
dropped by Level 4 — it appears in NEITHER the kept structure nor the
rejected structure (the claim says it must appear in the rejected one). -/
theorem C6_counterexample :
    level_4 (fun _ => "None") [[[["t", "a"]]]] = ([[[]]], [[[]]]) ∧
    (["t", "a"] : List String).length < 3 := by
  refine ⟨by decide, by decide⟩

/-- C6 (amended): in each Level-4 cell, a paper record with fewer than 3
fields is silently dropped (it reaches neither output), while a record with
at least 3 fields whose page fetch fails (the "None" sentinel, which matches
no attack pattern) is routed to the rejected list of the same cell. -/
theorem C6_short_dropped_fetchfail_rejected
    (fetch : String → String) (papers : List (List String))
    (p : List String) (hp : p ∈ papers) :
    (p.length < 3 →
       p ∉ (level_4_cell fetch papers).1 ∧ p ∉ (level_4_cell fetch papers).2) ∧
    (3 ≤ p.length → fetch (p.getD 2 "") = "None" →
       p ∈ (level_4_cell fetch papers).2) := by
  constructor
  · intro hlen
    constructor
    · intro hmem
      have := level_4_cell_fil_len fetch papers p hmem
      omega
    · intro hmem
      have := level_4_cell_rej_len fetch papers p hmem
      omega
  · intro hlen hfetch
    exact level_4_cell_rej_of_fetch_fail fetch papers p hp hlen hfetch

/-- C6 (witness): a 3-field record whose fetch fails lands in the rejected
list of its cell. -/
theorem C6_amended_witness :
    (["t1", "a1", "u1"] : List String) ∈
      (level_4_cell (fun _ => "None") [["t1", "a1", "u1"]]).2 :=
  (C6_short_dropped_fetchfail_rejected (fun _ => "None")
    [["t1", "a1", "u1"]] ["t1", "a1", "u1"] (by simp)).2 (by decide) rfl

/-- C7: for every non-empty candidate list of length K and every search
behaviour, `level_3` returns exactly 3 rows (one per fixed search piece),
each row has exactly K inner lists positionally aligned with the
candidates, row i is the candidate-wise query for the i-th search piece,
and a query raising or returning no papers yields an empty inner list at
its position, never an omitted entry. -/
theorem C7_level_3_shape
    (search : String → Option (List (List String)))
    (results : List (ℚ × String)) (h : results ≠ []) :
    (level_3 search results).length = 3 ∧
    (∀ row ∈ level_3 search results, row.length = results.length) ∧
    (∀ i, i < 3 →
       (level_3 search results).getD i [] =
         results.map (queryCell search (searchPrefixes.getD i ""))) ∧
    (∀ pre r, (search (pre ++ r.2) = some [] ∨ search (pre ++ r.2) = none) →
       queryCell search pre r = []) := by
  refine ⟨?_, ?_, ?_, ?_⟩
  · unfold level_3
    rw [if_neg h]
    simp [searchPrefixes]
  · intro row hrow
    unfold level_3 at hrow
    rw [if_neg h] at hrow
    rcases List.mem_map.mp hrow with ⟨pre, _, hpre⟩
    rw [← hpre]
    exact List.length_map results _
  · intro i hi
    unfold level_3
    rw [if_neg h]
    interval_cases i <;> simp [searchPrefixes]
  · intro pre r hq
    unfold queryCell
    by_cases hr : r.2 = ""
    · rw [if_pos hr]
    · rw [if_neg hr]
      rcases hq with hq | hq <;> rw [hq]

/-- C7 (witness): Scenario C — one candidate, all three searches return zero
papers — gives a 3×1 structure of three empty inner lists. -/
theorem C7_witness :
    (level_3 (fun _ => some ([] : List (List String)))
      [(mkRat 9 10, "XGBoost")]).length = 3 ∧
    level_3 (fun _ => some ([] : List (List String)))
      [(mkRat 9 10, "XGBoost")] = [[[]], [[]], [[]]] :=
  ⟨(C7_level_3_shape (fun _ => some []) [(mkRat 9 10, "XGBoost")]
      (by decide)).1,
   by decide⟩

/-- C8: the attack-type classifier checks inference-time patterns first and
training-time patterns only afterwards, first match winning: any page text
containing "membership inference" is labelled 0 (inference time); text
containing "data poisoning" with no inference-time match is labelled 1
(training time); any inference-time match wins regardless of training-time
matches; text matching neither family is rejected (-1). -/
theorem C8_attack_classifier (t : String) :
    (∀ a b : List Char, t.data = a ++ "membership inference".data ++ b →
       find_attack_type t = 0) ∧
    (∀ a b : List Char, t.data = a ++ "data poisoning".data ++ b →
       regex_search t patterns_inference = false → find_attack_type t = 1) ∧
    (regex_search t patterns_inference = true → find_attack_type t = 0) ∧
    (regex_search t patterns_inference = false →
       regex_search t patterns_training = false → find_attack_type t = -1) := by
  have hinf_wins : regex_search t patterns_inference = true →
      find_attack_type t = 0 := by
    intro hinf
    have hne : t ≠ "" := by
      intro he
      rw [he, regex_search_empty_inference] at hinf
      exact absurd hinf (by simp)
    unfold find_attack_type
    rw [if_neg hne, if_pos hinf]
  refine ⟨?_, ?_, hinf_wins, ?_⟩
  · intro a b h
    exact hinf_wins (regex_search_of_memInf h)
  · intro a b h hninf
    have htr := regex_search_of_poison h
    have hne := string_ne_empty_of_data_decomp (by decide) h
    unfold find_attack_type
    rw [if_neg hne, if_neg (by simp [hninf]), if_pos htr]
  · intro h1 h2
    unfold find_attack_type
    by_cases he : t = ""
    · rw [if_pos he]
    · rw [if_neg he, if_neg (by simp [h1]), if_neg (by simp [h2])]

/-- C8 (witness): the classifier outputs on the three scenario texts. -/
theorem C8_witness :
    find_attack_type "membership inference" = 0 ∧
    find_attack_type "uses data poisoning" = 1 ∧
    find_attack_type "nothing relevant" = -1 :=
  ⟨(C8_attack_classifier "membership inference").1 [] [] (by decide),
   (C8_attack_classifier "uses data poisoning").2.1 "uses ".data []
     (by decide) (by decide),
   (C8_attack_classifier "nothing relevant").2.2.2 (by decide) (by decide)⟩

/-- C9: Level 1 only retains QA answers whose confidence is strictly above
the 0.01 floor; `initial_results` is built exclusively from the answers of
the first three questions; the fourth question's answers land in
`additional_results` only, never merged into the pooled candidates. -/
theorem C9_level_1_pooling
    (nlp : String → String → Option (ℚ × String)) (pages : List String)
    (x : ℚ × String) :
    (x ∈ (level_1 nlp pages).initial_results →
       CONFIDENCE_FLOOR < x.1 ∧
       (x ∈ analyse_pages nlp pages QUESTION_1 ∨
        x ∈ analyse_pages nlp pages QUESTION_2 ∨
        x ∈ analyse_pages nlp pages QUESTION_3)) ∧
    (level_1 nlp pages).additional_results =
      analyse_pages nlp pages QUESTION_4 ∧
    (x ∈ (level_1 nlp pages).additional_results →
       CONFIDENCE_FLOOR < x.1) := by
  refine ⟨?_, level_1_additional_eq nlp pages, ?_⟩
  · intro h
    have hq := level_1_initial_mem h
    refine ⟨?_, hq⟩
    rcases hq with h1 | h2 | h3
    · exact mem_analyse_pages_score h1
    · exact mem_analyse_pages_score h2
    · exact mem_analyse_pages_score h3
  · intro h
    rw [level_1_additional_eq nlp pages] at h
    exact mem_analyse_pages_score h

/-- C9 (witness): with a QA oracle answering QUESTION_1 with "CNN" and
QUESTION_4 with "DICOM image", the fourth question's answer sits in
`additional_results` (equal to the QUESTION_4 aggregation) with confidence
above the floor. -/
theorem C9_witness :
    (level_1 nlpFourth ["p1"]).additional_results =
      analyse_pages nlpFourth ["p1"] QUESTION_4 ∧
    CONFIDENCE_FLOOR < ((1 : ℚ), "DICOM image").1 :=
  ⟨(C9_level_1_pooling nlpFourth ["p1"] (1, "DICOM image")).2.1,
   (C9_level_1_pooling nlpFourth ["p1"] (1, "DICOM image")).2.2 (by decide)⟩

/-- C10: an exception inside `check_desc` makes it return True, so in
`level_2` a non-generic candidate whose web validation crashed is admitted
to the front of `filtered_results` as if validated, and is not routed to
`neglected_results`. -/
theorem C10_crash_validates_keyword
    (env : String → CandOutcome) (c : ℚ × String) (rest : List (ℚ × String))
    (hek : c.2 ≠ "") (hgen : find_genericwords c.2 = false)
    (henv : env c.2 = CandOutcome.desc DescWorld.raises) (hc : c ∉ rest) :
    check_desc DescWorld.raises = true ∧
    ((level_2 env (c :: rest)).1).head? = some c ∧
    c ∉ (level_2 env (c :: rest)).2 := by
  have hstep : level_2 env (c :: rest) = level_2_go env rest [c] [] := by
    unfold level_2
    rw [if_neg (List.cons_ne_nil c rest)]
    conv_lhs => unfold level_2_go
    rw [if_neg (by simp [NUMBER_OF_KEYWORDS]), if_neg hek,
      if_neg (by simp [hgen]), henv]
    simp only
    rw [if_pos (by rfl : check_desc DescWorld.raises = true)]
    rfl
  refine ⟨rfl, ?_, ?_⟩
  · rw [hstep]
    rcases level_2_go_fil_extends env rest [c] [] with ⟨t, ht⟩
    rw [ht]
    rfl
  · intro hmem
    rw [hstep] at hmem
    rcases level_2_go_neg_mem env rest [c] [] c hmem with h' | h'
    · simp at h'
    · exact hc h'

/-- C10 (witness): a candidate "ResNet" whose validation crashes is admitted
first into `filtered_results` and kept out of `neglected_results`. -/
theorem C10_witness :
    check_desc DescWorld.raises = true ∧
    ((level_2 (fun _ => CandOutcome.desc DescWorld.raises)
        [(1, "ResNet")]).1).head? = some (1, "ResNet") ∧
    ((1 : ℚ), "ResNet") ∉
      (level_2 (fun _ => CandOutcome.desc DescWorld.raises)
        [(1, "ResNet")]).2 :=
  C10_crash_validates_keyword (fun _ => CandOutcome.desc DescWorld.raises)
    (1, "ResNet") [] (by decide) (by decide) rfl (by simp)
